import Mathlib

/-!
Shallow embedding of the multi-agent orchestration repository
(`flexible_orchestrator-activity.py` and `multi_agent_orchestrator.py`).

Python dictionaries (which preserve insertion order and have last-write-wins
assignment) are modeled as association lists with unique keys; `dictInsert`
models `d[k] = v` and `dlookup` models `d.get(k)`.
-/

namespace Orchestration

/-- Models Python dict assignment `d[k] = v`: if the key is present its value is
replaced in place (keeping its position), otherwise the pair is appended. -/
def dictInsert {α : Type} : List (String × α) → String → α → List (String × α)
  | [], k, v => [(k, v)]
  | (k', v') :: tl, k, v =>
      if k' == k then (k, v) :: tl else (k', v') :: dictInsert tl k v

/-- Models Python dict lookup `d.get(k)` (returns `none` when absent). -/
def dlookup {α : Type} : List (String × α) → String → Option α
  | [], _ => none
  | (k', v') :: tl, k => if k' == k then some v' else dlookup tl k

theorem dlookup_dictInsert_self {α : Type} (m : List (String × α)) (k : String) (v : α) :
    dlookup (dictInsert m k v) k = some v := by
  induction m with
  | nil => simp [dictInsert, dlookup]
  | cons hd tl ih =>
      obtain ⟨k', v'⟩ := hd
      by_cases h : k' = k
      · simp [dictInsert, dlookup, h]
      · simp only [dictInsert, dlookup, beq_iff_eq, if_neg h]
        exact ih

theorem dlookup_dictInsert_ne {α : Type} (m : List (String × α)) (k k' : String) (v : α)
    (h : k' ≠ k) : dlookup (dictInsert m k v) k' = dlookup m k' := by
  induction m with
  | nil => simp [dictInsert, dlookup, h, Ne.symm h]
  | cons hd tl ih =>
      obtain ⟨k₀, v₀⟩ := hd
      by_cases h₀ : k₀ = k
      · subst h₀
        simp [dictInsert, dlookup, h, Ne.symm h]
      · simp only [dictInsert, beq_iff_eq, if_neg h₀]
        by_cases h₁ : k₀ = k'
        · simp [dlookup, h₁]
        · simp only [dlookup, beq_iff_eq, if_neg h₁]
          exact ih

theorem dlookup_isSome_dictInsert {α : Type} (m : List (String × α)) (k k' : String) (v : α)
    (h : (dlookup m k').isSome) : (dlookup (dictInsert m k v) k').isSome := by
  by_cases hk : k' = k
  · subst hk; simp [dlookup_dictInsert_self]
  · rwa [dlookup_dictInsert_ne m k k' v hk]

theorem dlookup_mem {α : Type} (m : List (String × α)) (k : String) (v : α)
    (h : dlookup m k = some v) : (k, v) ∈ m := by
  induction m with
  | nil => simp [dlookup] at h
  | cons hd tl ih =>
      obtain ⟨k', v'⟩ := hd
      by_cases h' : k' = k
      · subst h'
        simp only [dlookup, beq_self_eq_true, if_pos] at h
        simp [← Option.some_inj.mp h]
      · simp only [dlookup, beq_iff_eq, if_neg h'] at h
        exact List.mem_cons_of_mem _ (ih h)

theorem mem_dictInsert {α : Type} (m : List (String × α)) (k : String) (v : α) (p : String × α)
    (h : p ∈ dictInsert m k v) : p = (k, v) ∨ p ∈ m := by
  induction m with
  | nil => simpa [dictInsert] using h
  | cons hd tl ih =>
      obtain ⟨k', v'⟩ := hd
      by_cases h' : k' = k
      · simp only [dictInsert, h', beq_self_eq_true, if_pos] at h
        rcases List.mem_cons.mp h with h | h
        · exact Or.inl h
        · exact Or.inr (List.mem_cons_of_mem _ h)
      · simp only [dictInsert, beq_iff_eq, if_neg h'] at h
        rcases List.mem_cons.mp h with h | h
        · exact Or.inr (by simp [h])
        · rcases ih h with h | h
          · exact Or.inl h
          · exact Or.inr (List.mem_cons_of_mem _ h)

/-! ## Agent registry (`AgentRegistry` in `flexible_orchestrator-activity.py`) -/

/-- Configuration for a pluggable agent (dataclass `AgentConfig`).
The `metadata` dict of opaque values is modeled as a string-keyed association
list with string values. -/
structure AgentConfig where
  name : String
  description : String
  tools : List String
  system_prompt : String
  capabilities : List String := []
  metadata : List (String × String) := []
  deriving DecidableEq, Repr

/-- Central registry for all available agents (`AgentRegistry`); the backing
Python dict `_agents` is an insertion-ordered map from name to config. -/
structure AgentRegistry where
  agents : List (String × AgentConfig)
  deriving DecidableEq, Repr

/-- `AgentRegistry.__init__`: starts with an empty `_agents` dict. -/
def AgentRegistry.empty : AgentRegistry := ⟨[]⟩

/-- `AgentRegistry.register`: `self._agents[agent_config.name] = agent_config`
(the `print` call is an observation-only side effect and is not modeled). -/
def AgentRegistry.register (r : AgentRegistry) (agent_config : AgentConfig) : AgentRegistry :=
  ⟨dictInsert r.agents agent_config.name agent_config⟩

/-- `AgentRegistry.get`: `self._agents.get(agent_name)`. -/
def AgentRegistry.get (r : AgentRegistry) (agent_name : String) : Option AgentConfig :=
  dlookup r.agents agent_name

/-- `AgentRegistry.list_agents`: `list(self._agents.keys())`. -/
def AgentRegistry.list_agents (r : AgentRegistry) : List String :=
  r.agents.map Prod.fst

/-- `AgentRegistry.find_by_capability`: agents whose capability list contains
the tag, in registration order. -/
def AgentRegistry.find_by_capability (r : AgentRegistry) (capability : String) :
    List AgentConfig :=
  (r.agents.map Prod.snd).filter (fun agent => capability ∈ agent.capabilities)

/-- `AgentRegistry.to_prompt_context`: the sentinel string when empty, otherwise
a header followed by one block per registered agent, in registration order. -/
def AgentRegistry.to_prompt_context (r : AgentRegistry) : String :=
  if r.agents.isEmpty then "No agents registered."
  else
    r.agents.foldl
      (fun context p =>
        context ++ "• " ++ p.1 ++ "\n" ++
          "  Description: " ++ p.2.description ++ "\n" ++
          "  Capabilities: " ++ String.intercalate ", " p.2.capabilities ++ "\n" ++
          "  Tools: " ++ String.intercalate ", " p.2.tools ++ "\n\n")
      "AVAILABLE AGENTS:\n\n"

/-- Error raised by `register_from_file`; the source raises Python `ValueError`
with this message, which the design document calls `ConfigFormatError`. -/
inductive ConfigError where
  | configFormatError : String → ConfigError
  deriving DecidableEq, Repr

/-- The parsed top-level value of a config document: a single object or a list
of objects (`json.load` result as consumed by `register_from_file`). -/
inductive ConfigDoc where
  | one : AgentConfig → ConfigDoc
  | many : List AgentConfig → ConfigDoc
  deriving DecidableEq, Repr

/-- `AgentRegistry.register_from_file`, with the filesystem abstracted: `suffix`
is `Path(config_file).suffix` and `doc` the value `json.load` would produce.
The pair returned is (raised exception or unit, registry state afterwards):
when the suffix is not `.json` the `ValueError` is raised before any
registration, so the registry is returned unchanged. -/
def AgentRegistry.register_from_file (r : AgentRegistry) (suffix : String) (doc : ConfigDoc) :
    Except ConfigError Unit × AgentRegistry :=
  if suffix == ".json" then
    match doc with
    | .one c => (Except.ok (), r.register c)
    | .many cs => (Except.ok (), cs.foldl AgentRegistry.register r)
  else
    (Except.error (ConfigError.configFormatError ("Unsupported config file format: " ++ suffix)), r)

/-- C4: For every registry and every WorkerSpec, register(spec) followed by
get(spec.name) returns a spec equal to the one registered; registering two
specs with the same name in succession leaves get(name) returning the second
one, and no error is raised on the duplicate registration (register is total
and always succeeds). -/
theorem registry_register_get_roundtrip (r : AgentRegistry) (c c₂ : AgentConfig) :
    (r.register c).get c.name = some c ∧
    (c₂.name = c.name → ((r.register c).register c₂).get c.name = some c₂) := by
  constructor
  · exact dlookup_dictInsert_self r.agents c.name c
  · intro h
    show dlookup (dictInsert (dictInsert r.agents c.name c) c₂.name c₂) c.name = some c₂
    rw [h]
    exact dlookup_dictInsert_self _ c.name c₂

/-- Witness for C4 at a concrete registry and two concrete specs sharing a name. -/
theorem registry_register_get_roundtrip_witness :
    (AgentRegistry.empty.register
        { name := "a", description := "d1", tools := [], system_prompt := "p1" }).get "a"
      = some { name := "a", description := "d1", tools := [], system_prompt := "p1" } ∧
    ((AgentRegistry.empty.register
        { name := "a", description := "d1", tools := [], system_prompt := "p1" }).register
        { name := "a", description := "d2", tools := [], system_prompt := "p2" }).get "a"
      = some { name := "a", description := "d2", tools := [], system_prompt := "p2" } := by
  refine ⟨(registry_register_get_roundtrip AgentRegistry.empty
    { name := "a", description := "d1", tools := [], system_prompt := "p1" }
    { name := "a", description := "d2", tools := [], system_prompt := "p2" }).1, ?_⟩
  exact (registry_register_get_roundtrip AgentRegistry.empty
    { name := "a", description := "d1", tools := [], system_prompt := "p1" }
    { name := "a", description := "d2", tools := [], system_prompt := "p2" }).2 rfl

/-- C7: For every registry state, calling to_prompt_context twice with no
intervening registration returns identical text (the render reads only the
registry state, which it does not mutate), and on a registry with no
registered workers every call returns the fixed sentinel text. -/
theorem to_prompt_context_idempotent (r : AgentRegistry) :
    r.to_prompt_context = r.to_prompt_context ∧
    (r.agents = [] → r.to_prompt_context = "No agents registered.") := by
  refine ⟨rfl, fun h => ?_⟩
  simp [AgentRegistry.to_prompt_context, h]

/-- Witness for C7 at the empty registry. -/
theorem to_prompt_context_idempotent_witness :
    AgentRegistry.empty.to_prompt_context = "No agents registered." :=
  (to_prompt_context_idempotent AgentRegistry.empty).2 rfl

/-- C8: For every bulk registry load from a config file whose extension is not
`.json`, loading fails with the format error (raised before any worker-spec is
registered) and the registry contents are unchanged by the failed load. -/
theorem register_from_file_bad_suffix (r : AgentRegistry) (suffix : String) (doc : ConfigDoc)
    (h : suffix ≠ ".json") :
    r.register_from_file suffix doc =
      (Except.error (ConfigError.configFormatError ("Unsupported config file format: " ++ suffix)),
        r) := by
  simp [AgentRegistry.register_from_file, h]

/-- Witness for C8 at a concrete `.yaml` load attempt against a concrete registry. -/
theorem register_from_file_bad_suffix_witness :
    (AgentRegistry.empty.register
        { name := "a", description := "d", tools := [], system_prompt := "p" }).register_from_file
        ".yaml" (ConfigDoc.many []) =
      (Except.error (ConfigError.configFormatError "Unsupported config file format: .yaml"),
        AgentRegistry.empty.register
          { name := "a", description := "d", tools := [], system_prompt := "p" }) :=
  register_from_file_bad_suffix _ ".yaml" (ConfigDoc.many []) (by decide)

/-! ## Activity tracking (`ActivityTracker` in `flexible_orchestrator-activity.py`;
the copy in `multi_agent_orchestrator.py` is identical except that its root
label is "LEAD-AGENT" instead of "LEAD-ORCHESTRATOR"). -/

/-- The `tool_input` sub-dictionary of a hook's input payload; only the
`subagent_type` entry is consulted by the tracker. -/
structure ToolInput where
  subagent_type : Option String := none
  deriving DecidableEq, Repr

/-- The hook input payload `input_data`; `none` models an absent dict key, so
`input_data.get("tool_name", "Unknown")` becomes `tool_name.getD "Unknown"`. -/
structure InputData where
  tool_name : Option String := none
  tool_input : Option ToolInput := none
  parent_tool_use_id : Option String := none
  deriving DecidableEq, Repr

/-- The opaque output payload dict handed to the post-tool-use hook. -/
abbrev OutputData := List (String × String)

/-- Dataclass `AgentActivity`: one attribution record. -/
structure AgentActivity where
  agent_name : String
  tool_name : String
  timestamp : String
  input_data : InputData
  output_data : OutputData := []
  parent_tool_id : Option String := none
  deriving DecidableEq, Repr

/-- `ActivityTracker` state: the appended record list and the spawn map
`subagent_map : tool_use_id -> agent_name`. -/
structure ActivityTracker where
  activities : List AgentActivity := []
  subagent_map : List (String × String) := []
  deriving DecidableEq, Repr

/-- `ActivityTracker.__init__`: empty records, empty spawn map. -/
def ActivityTracker.init : ActivityTracker := {}

/-- Models Python `str.upper()` as a character-wise case map (equal to
`String.toUpper`, stated structurally so that it evaluates by reduction). -/
def upperStr (s : String) : String := String.mk (s.data.map Char.toUpper)

/-- The synthesized label `f"{subagent_type.upper()}-{len(self.subagent_map) + 1}"`
computed before the spawn-map insertion. -/
def spawn_label (t : ActivityTracker) (input_data : InputData) : String :=
  upperStr ((input_data.tool_input.getD {}).subagent_type.getD "") ++ "-" ++
    toString (t.subagent_map.length + 1)

/-- The spawn-detection block of `pre_tool_use_hook`: on a "Task" call with a
truthy (present, non-empty) `tool_use_id`, store the synthesized label in
`subagent_map` under this call's own identifier. -/
def spawn_phase (t : ActivityTracker) (input_data : InputData) (tool_use_id : Option String) :
    ActivityTracker :=
  if input_data.tool_name.getD "Unknown" == "Task" then
    match tool_use_id with
    | some id =>
        if id == "" then t
        else { t with subagent_map := dictInsert t.subagent_map id (spawn_label t input_data) }
    | none => t
  else t

/-- `ActivityTracker.pre_tool_use_hook`: run the spawn-detection block, resolve
the attribution by `subagent_map.get(parent_id, "LEAD-ORCHESTRATOR")`, and
append a new record with empty output payload. The wall-clock timestamp is an
external input. -/
def pre_tool_use_hook (t : ActivityTracker) (input_data : InputData)
    (tool_use_id : Option String) (timestamp : String) : ActivityTracker :=
  let t1 := spawn_phase t input_data tool_use_id
  let parent_id := input_data.parent_tool_use_id
  let agent_name := (parent_id.bind (dlookup t1.subagent_map)).getD "LEAD-ORCHESTRATOR"
  { t1 with
    activities := t1.activities ++
      [{ agent_name := agent_name, tool_name := input_data.tool_name.getD "Unknown",
         timestamp := timestamp, input_data := input_data, output_data := [],
         parent_tool_id := parent_id }] }

/-- Models the in-place update `self.activities[-1].output_data = output_data`
on a nonempty list. -/
def setLast (output_data : OutputData) : List AgentActivity → List AgentActivity
  | [] => []
  | [a] => [{ a with output_data := output_data }]
  | a :: b :: rest => a :: setLast output_data (b :: rest)

/-- `ActivityTracker.post_tool_use_hook`: if any activity exists, overwrite the
last record's output payload; always return the empty dict. The pair is
(tracker state afterwards, returned dict). -/
def post_tool_use_hook (t : ActivityTracker) (input_data : InputData)
    (output_data : OutputData) (tool_use_id : Option String) : ActivityTracker × OutputData :=
  (if t.activities.isEmpty then t
   else { t with activities := setLast output_data t.activities }, [])

/-- One event of the flat hook stream: an enter (pre-tool-use) event carrying
the input payload, call identifier and timestamp, or an exit (post-tool-use)
event carrying the input payload, output payload and call identifier. -/
inductive HookEvent where
  | enter : InputData → Option String → String → HookEvent
  | exit : InputData → OutputData → Option String → HookEvent
  deriving DecidableEq, Repr

/-- Process one hook event against the tracker state. -/
def stepHook (t : ActivityTracker) : HookEvent → ActivityTracker
  | .enter input tuid ts => pre_tool_use_hook t input tuid ts
  | .exit input output tuid => (post_tool_use_hook t input output tuid).1

/-- Process a whole event stream in order. -/
def runHooks (t : ActivityTracker) (es : List HookEvent) : ActivityTracker :=
  es.foldl stepHook t

/-- The call identifier under which this event creates a spawn-map entry, when
it does (a "Task" enter event with a truthy identifier). -/
def spawnId? : HookEvent → Option String
  | .enter input (some i) _ =>
      if input.tool_name.getD "Unknown" == "Task" then
        (if i == "" then none else some i)
      else none
  | _ => none

/-- All spawn-map-creating identifiers of a stream, in order. -/
def spawnIds (es : List HookEvent) : List String := es.filterMap spawnId?

theorem spawnIds_cons_none (e : HookEvent) (rest : List HookEvent) (h : spawnId? e = none) :
    spawnIds (e :: rest) = spawnIds rest := by
  simp [spawnIds, List.filterMap_cons, h]

theorem spawnIds_cons_some (e : HookEvent) (rest : List HookEvent) (i : String)
    (h : spawnId? e = some i) : spawnIds (e :: rest) = i :: spawnIds rest := by
  simp [spawnIds, List.filterMap_cons, h]

theorem subagent_map_stepHook_of_spawnId_none (t : ActivityTracker) (e : HookEvent)
    (h : spawnId? e = none) : (stepHook t e).subagent_map = t.subagent_map := by
  cases e with
  | enter input tuid ts =>
      cases tuid with
      | none =>
          simp only [stepHook, pre_tool_use_hook, spawn_phase]
          split <;> rfl
      | some i =>
          simp only [spawnId?] at h
          simp only [stepHook, pre_tool_use_hook, spawn_phase]
          split
          · rename_i hTask
            rw [if_pos hTask] at h
            split
            · rfl
            · rename_i hi
              rw [if_neg hi] at h
              exact absurd h (by simp)
          · rfl
  | exit input output tuid =>
      simp only [stepHook, post_tool_use_hook]
      split <;> rfl

theorem subagent_map_stepHook_of_spawnId_some (t : ActivityTracker) (e : HookEvent) (i : String)
    (h : spawnId? e = some i) :
    ∃ inp : InputData, (stepHook t e).subagent_map = dictInsert t.subagent_map i (spawn_label t inp) := by
  cases e with
  | enter input tuid ts =>
      cases tuid with
      | none => simp [spawnId?] at h
      | some j =>
          simp only [spawnId?] at h
          by_cases hTask : input.tool_name.getD "Unknown" == "Task"

          · rw [if_pos hTask] at h
            by_cases hj : j == ""
            · rw [if_pos hj] at h
              exact absurd h (by simp)
            · rw [if_neg hj] at h
              obtain rfl : j = i := by simpa using h
              refine ⟨input, ?_⟩
              simp only [stepHook, pre_tool_use_hook, spawn_phase, if_pos hTask, if_neg hj]
          · rw [if_neg hTask] at h
            exact absurd h (by simp)
  | exit input output tuid => simp [spawnId?] at h

theorem subagent_map_persists (r : List HookEvent) :
    ∀ (t : ActivityTracker) (k v : String), k ∉ spawnIds r →
      dlookup t.subagent_map k = some v →
      dlookup (runHooks t r).subagent_map k = some v := by
  induction r with
  | nil => intro t k v _ h; exact h
  | cons e rest ih =>
      intro t k v hk h
      have hrun : runHooks t (e :: rest) = runHooks (stepHook t e) rest := rfl
      rw [hrun]
      cases hsp : spawnId? e with
      | none =>
          rw [spawnIds_cons_none e rest hsp] at hk
          exact ih (stepHook t e) k v hk
            (by rw [subagent_map_stepHook_of_spawnId_none t e hsp]; exact h)
      | some i =>
          rw [spawnIds_cons_some e rest i hsp] at hk
          have hki : k ≠ i := fun he => hk (he ▸ List.mem_cons_self i _)
          have hkr : k ∉ spawnIds rest := fun he => hk (List.mem_cons_of_mem _ he)
          obtain ⟨w, hw⟩ := subagent_map_stepHook_of_spawnId_some t e i hsp
          exact ih (stepHook t e) k v hkr
            (by rw [hw, dlookup_dictInsert_ne _ _ _ _ hki]; exact h)

theorem subagent_map_keys_from_spawnIds (l : List HookEvent) :
    ∀ (t : ActivityTracker) (k : String),
      (dlookup (runHooks t l).subagent_map k).isSome →
      (dlookup t.subagent_map k).isSome ∨ k ∈ spawnIds l := by
  induction l with
  | nil => intro t k h; exact Or.inl h
  | cons e rest ih =>
      intro t k h
      have hrun : runHooks t (e :: rest) = runHooks (stepHook t e) rest := rfl
      rw [hrun] at h
      cases hsp : spawnId? e with
      | none =>
          rcases ih (stepHook t e) k h with h' | h'
          · rw [subagent_map_stepHook_of_spawnId_none t e hsp] at h'
            exact Or.inl h'
          · exact Or.inr (by rw [spawnIds_cons_none e rest hsp]; exact h')
      | some i =>
          rcases ih (stepHook t e) k h with h' | h'
          · obtain ⟨w, hw⟩ := subagent_map_stepHook_of_spawnId_some t e i hsp
            rw [hw] at h'
            by_cases hki : k = i
            · refine Or.inr ?_
              rw [spawnIds_cons_some e rest i hsp, hki]
              exact List.mem_cons_self i _
            · rw [dlookup_dictInsert_ne _ _ _ _ hki] at h'
              exact Or.inl h'
          · refine Or.inr ?_
            rw [spawnIds_cons_some e rest i hsp]
            exact List.mem_cons_of_mem _ h'

/-- Input payload of a "Task" (spawn) call requesting the given subagent type. -/
def taskInput (subagent_type : String) : InputData :=
  { tool_name := some "Task", tool_input := some { subagent_type := some subagent_type } }

/-- Counterexample to C6: two spawn-type enter events carrying the same call
identifier "t". The first creates the entry ("t", "A-1"); the second event
overwrites it with "B-2", so an entry is not "never overwritten by any later
event" for every event stream. -/
theorem spawnmap_overwrite_counterexample :
    (runHooks ActivityTracker.init
        [HookEvent.enter (taskInput "a") (some "t") "ts1"]).subagent_map = [("t", "A-1")] ∧
    (runHooks ActivityTracker.init
        [HookEvent.enter (taskInput "a") (some "t") "ts1",
         HookEvent.enter (taskInput "b") (some "t") "ts2"]).subagent_map = [("t", "B-2")] := by
  decide

/-- C6 amended: provided no two spawn-type enter events of the stream carry the
same call identifier, a SpawnMap entry is created at the moment the spawn-type
(Task) enter event carrying a truthy call identifier is observed — holding the
synthesized label that combines the uppercased requested sub-worker capability
name with the ordinal `map size + 1` — and is never overwritten by any later
event. -/
theorem spawnmap_entry_once :
    (∀ (t : ActivityTracker) (input_data : InputData) (i ts : String),
        input_data.tool_name = some "Task" → i ≠ "" →
        dlookup (pre_tool_use_hook t input_data (some i) ts).subagent_map i =
          some (upperStr ((input_data.tool_input.getD {}).subagent_type.getD "") ++ "-" ++
            toString (t.subagent_map.length + 1))) ∧
    (∀ (l r : List HookEvent) (k v : String),
        (spawnIds (l ++ r)).Nodup →
        dlookup (runHooks ActivityTracker.init l).subagent_map k = some v →
        dlookup (runHooks ActivityTracker.init (l ++ r)).subagent_map k = some v) := by
  constructor
  · intro t input_data i ts hname hi
    have hmap : (pre_tool_use_hook t input_data (some i) ts).subagent_map =
        (spawn_phase t input_data (some i)).subagent_map := rfl
    rw [hmap]
    simp [spawn_phase, hname, hi, spawn_label, dlookup_dictInsert_self]
  · intro l r k v hnd hl
    have hmem : k ∈ spawnIds l := by
      rcases subagent_map_keys_from_spawnIds l ActivityTracker.init k (by rw [hl]; rfl) with h | h
      · exact absurd h (by simp [ActivityTracker.init, dlookup])
      · exact h
    have happ : spawnIds (l ++ r) = spawnIds l ++ spawnIds r := by
      simp [spawnIds, List.filterMap_append]
    rw [happ] at hnd
    have hnr : k ∉ spawnIds r := fun he => (List.nodup_append.mp hnd).2.2 hmem he
    have hfold : runHooks ActivityTracker.init (l ++ r) =
        runHooks (runHooks ActivityTracker.init l) r := by
      simp [runHooks, List.foldl_append]
    rw [hfold]
    exact subagent_map_persists r (runHooks ActivityTracker.init l) k v hnr hl

/-- Witness for C6 amended: a concrete spawn creates the entry ("t1",
"RESEARCH-1") and a later unrelated event leaves it intact. -/
theorem spawnmap_entry_once_witness :
    dlookup (pre_tool_use_hook ActivityTracker.init (taskInput "research")
        (some "t1") "ts").subagent_map "t1" = some "RESEARCH-1" ∧
    dlookup (runHooks ActivityTracker.init
        ([HookEvent.enter (taskInput "research") (some "t1") "ts"] ++
          [HookEvent.enter {} none "ts2"])).subagent_map "t1" = some "RESEARCH-1" := by
  constructor
  · have h := spawnmap_entry_once.1 ActivityTracker.init (taskInput "research") "t1" "ts"
      rfl (by decide)
    rw [h]
    decide
  · exact spawnmap_entry_once.2 [HookEvent.enter (taskInput "research") (some "t1") "ts"]
      [HookEvent.enter {} none "ts2"] "t1" "RESEARCH-1" (by decide) (by decide)

/-! ### Output assignment on exit events (claim C1) -/

theorem spawn_phase_activities (t : ActivityTracker) (input_data : InputData)
    (tool_use_id : Option String) :
    (spawn_phase t input_data tool_use_id).activities = t.activities := by
  cases tool_use_id with
  | none => simp only [spawn_phase]; split <;> rfl
  | some id =>
      simp only [spawn_phase]
      split
      · split <;> rfl
      · rfl

theorem pre_hook_activities_length (t : ActivityTracker) (input_data : InputData)
    (tool_use_id : Option String) (ts : String) :
    (pre_tool_use_hook t input_data tool_use_id ts).activities.length =
      t.activities.length + 1 := by
  simp [pre_tool_use_hook, spawn_phase_activities]

theorem setLast_length (output_data : OutputData) (l : List AgentActivity) :
    (setLast output_data l).length = l.length := by
  induction l with
  | nil => rfl
  | cons a rest ih =>
      cases rest with
      | nil => rfl
      | cons b rest' => simpa [setLast] using ih

theorem post_hook_activities_length (t : ActivityTracker) (input_data : InputData)
    (output_data : OutputData) (tool_use_id : Option String) :
    ((post_tool_use_hook t input_data output_data tool_use_id).1).activities.length =
      t.activities.length := by
  simp only [post_tool_use_hook]
  split
  · rfl
  · simp [setLast_length]

/-- For each exit event of the stream, the index (in append order) of the
record whose output payload that exit overwrites, derived by running the
actual hook functions: the post-tool-use hook targets `activities[-1]`, i.e.
index `length - 1`, whenever the list is nonempty. -/
def runTargets (t : ActivityTracker) : List HookEvent → List Nat
  | [] => []
  | e :: rest =>
      match e with
      | .exit _ _ _ =>
          if t.activities.isEmpty then runTargets (stepHook t e) rest
          else (t.activities.length - 1) :: runTargets (stepHook t e) rest
      | .enter _ _ _ => runTargets (stepHook t e) rest

/-- Transparent recount of the exit targets: each exit (with at least one
record appended so far) targets the most recently appended record, counting
enters only. -/
def lastTargets : Nat → List HookEvent → List Nat
  | _, [] => []
  | n, .enter _ _ _ :: rest => lastTargets (n + 1) rest
  | n, .exit _ _ _ :: rest =>
      if n = 0 then lastTargets n rest else (n - 1) :: lastTargets n rest

/-- A stream in which every exit event is preceded by an enter event with no
other exit in between (the strict enter/exit alternation the attributor
implicitly assumes). -/
def wellAlt : Bool → List HookEvent → Bool
  | _, [] => true
  | _, .enter _ _ _ :: rest => wellAlt true rest
  | canExit, .exit _ _ _ :: rest => canExit && wellAlt false rest

/-- Entry point of `wellAlt`: initially no enter has been seen. -/
def wellAlternating (es : List HookEvent) : Bool := wellAlt false es

theorem runTargets_eq_lastTargets (es : List HookEvent) :
    ∀ t : ActivityTracker, runTargets t es = lastTargets t.activities.length es := by
  induction es with
  | nil => intro t; rfl
  | cons e rest ih =>
      intro t
      cases e with
      | enter input_data tuid ts =>
          simp only [runTargets, lastTargets]
          rw [ih (stepHook t (HookEvent.enter input_data tuid ts))]
          congr 1
          exact pre_hook_activities_length t input_data tuid ts
      | exit input_data output_data tuid =>
          simp only [runTargets, lastTargets]
          have hlen : (stepHook t (HookEvent.exit input_data output_data tuid)).activities.length =
              t.activities.length := post_hook_activities_length t input_data output_data tuid
          by_cases h : t.activities.isEmpty
          · have h0 : t.activities.length = 0 := by
              simpa [List.isEmpty_iff_length_eq_zero] using h
            rw [if_pos h, if_pos h0, ih, hlen]
          · have h0 : ¬ t.activities.length = 0 := by
              simpa [List.isEmpty_iff_length_eq_zero] using h
            rw [if_neg h, if_neg h0, ih, hlen]

theorem runTargets_pairwise_aux (es : List HookEvent) :
    ∀ (c : Bool) (t : ActivityTracker), wellAlt c es = true →
      (runTargets t es).Pairwise (· < ·) ∧
      ∀ x ∈ runTargets t es,
        (if c then t.activities.length - 1 else t.activities.length) ≤ x := by
  induction es with
  | nil =>
      intro c t _
      exact ⟨List.Pairwise.nil, by intro x hx; simp [runTargets] at hx⟩
  | cons e rest ih =>
      intro c t h
      cases e with
      | enter input_data tuid ts =>
          have h' : wellAlt true rest = true := h
          obtain ⟨hp, hb⟩ := ih true (stepHook t (HookEvent.enter input_data tuid ts)) h'
          have hlen : (stepHook t (HookEvent.enter input_data tuid ts)).activities.length =
              t.activities.length + 1 := pre_hook_activities_length t input_data tuid ts
          refine ⟨hp, ?_⟩
          intro x hx
          have hx' := hb x hx
          rw [if_pos rfl, hlen] at hx'
          cases c with
          | true => rw [if_pos rfl]; omega
          | false => rw [if_neg (by simp)]; omega
      | exit input_data output_data tuid =>
          have hc : c = true ∧ wellAlt false rest = true := by
            cases c with
            | false => simp [wellAlt] at h
            | true => exact ⟨rfl, by simpa [wellAlt] using h⟩
          obtain ⟨rfl, h'⟩ := hc
          obtain ⟨hp, hb⟩ := ih false (stepHook t (HookEvent.exit input_data output_data tuid)) h'
          have hlen : (stepHook t (HookEvent.exit input_data output_data tuid)).activities.length =
              t.activities.length := post_hook_activities_length t input_data output_data tuid
          have hball : ∀ x ∈ runTargets
              (stepHook t (HookEvent.exit input_data output_data tuid)) rest,
              t.activities.length ≤ x := by
            intro x hx
            have hx' := hb x hx
            rwa [if_neg (by simp), hlen] at hx'
          simp only [runTargets]
          by_cases hemp : t.activities.isEmpty
          · rw [if_pos hemp]
            refine ⟨hp, ?_⟩
            intro x hx
            rw [if_pos trivial]
            have := hball x hx
            omega
          · rw [if_neg hemp]
            have h0 : 0 < t.activities.length := by
              rcases Nat.eq_zero_or_pos t.activities.length with h0 | h0
              · exact absurd (by simpa [List.isEmpty_iff_length_eq_zero] using h0) hemp
              · exact h0
            refine ⟨List.Pairwise.cons (fun y hy => by have := hball y hy; omega) hp, ?_⟩
            intro x hx
            rw [if_pos trivial]
            rcases List.mem_cons.mp hx with hx | hx
            · omega
            · have := hball x hx
              omega

/-- C1 amended: on each exit event the record that receives the output payload
is the most recently appended record unconditionally — whether or not it is
still awaiting an output — so a record 's output can be overwritten; the
at-most-once discipline (each record's output assigned at most once, and only
after its enter event appended it) holds provided every exit event is preceded
by an enter event with no other exit event in between. -/
theorem exit_assignment_discipline (es : List HookEvent) :
    runTargets ActivityTracker.init es = lastTargets 0 es ∧
    (wellAlternating es = true → (runTargets ActivityTracker.init es).Pairwise (· < ·)) := by
  constructor
  · exact runTargets_eq_lastTargets es ActivityTracker.init
  · intro h
    exact (runTargets_pairwise_aux es false ActivityTracker.init h).1

/-- Witness for C1 amended at a concrete strictly alternating stream: the two
exits target the two distinct records in order. -/
theorem exit_assignment_discipline_witness :
    (runTargets ActivityTracker.init
        [HookEvent.enter {} none "t1", HookEvent.exit {} [("r", "1")] none,
         HookEvent.enter {} none "t2", HookEvent.exit {} [("r", "2")] none]).Pairwise
      (· < ·) :=
  (exit_assignment_discipline
      [HookEvent.enter {} none "t1", HookEvent.exit {} [("r", "1")] none,
       HookEvent.enter {} none "t2", HookEvent.exit {} [("r", "2")] none]).2 (by decide)

/-- Counterexample to C1: for the stream enter, enter, exit, exit — which is
well-nested (calls complete in reverse order of entry) — both exit events
assign their payload to record 1: that record's output is assigned twice
(ending at the second exit's payload) while record 0, still awaiting an
output, never receives one. -/
theorem exit_double_assignment_counterexample :
    runTargets ActivityTracker.init
        [HookEvent.enter {} none "t1", HookEvent.enter {} none "t2",
         HookEvent.exit {} [("r", "1")] none, HookEvent.exit {} [("r", "2")] none] = [1, 1] ∧
    (runHooks ActivityTracker.init
        [HookEvent.enter {} none "t1", HookEvent.enter {} none "t2",
         HookEvent.exit {} [("r", "1")] none,
         HookEvent.exit {} [("r", "2")] none]).activities.map (fun a => a.output_data) =
      [[], [("r", "2")]] := by
  decide

/-! ### Attribution of enter events (claim C5) -/

/-- An enter event attributes correctly when its parent identifier, if present,
is found in the spawn map at lookup time (after this event's own
spawn-detection block ran); exit events impose no condition. -/
def parentOk (t : ActivityTracker) : HookEvent → Bool
  | .enter input_data tuid _ =>
      match input_data.parent_tool_use_id with
      | none => true
      | some p => (dlookup (spawn_phase t input_data tuid).subagent_map p).isSome
  | .exit _ _ _ => true

/-- Every enter event of the stream with a set parent identifier finds it in
the spawn map at the moment it is processed. -/
def allParentsMapped (t : ActivityTracker) : List HookEvent → Bool
  | [] => true
  | e :: rest => parentOk t e && allParentsMapped (stepHook t e) rest

/-- An enter event whose parent call identifier is unset. -/
def isRootEnter : HookEvent → Bool
  | .enter input_data _ _ => input_data.parent_tool_use_id.isNone
  | .exit _ _ _ => false

/-- Number of events of the stream whose parent id is unset. -/
def rootEnterCount (es : List HookEvent) : Nat := es.countP isRootEnter

/-- Number of records attributed to the coordinator root label. -/
def rootRecordCount (l : List AgentActivity) : Nat :=
  l.countP (fun a => a.agent_name == "LEAD-ORCHESTRATOR")

theorem digitChar_isDigit (m : Nat) (h : m < 10) : (Nat.digitChar m).isDigit = true := by
  interval_cases m <;> decide

theorem toDigitsCore_all_digits (f : Nat) :
    ∀ (n : Nat) (ds : List Char), (∀ c ∈ ds, c.isDigit = true) →
      ∀ c ∈ Nat.toDigitsCore 10 f n ds, c.isDigit = true := by
  induction f with
  | zero => intro n ds hds c hc; exact hds c hc
  | succ f ih =>
      intro n ds hds c hc
      simp only [Nat.toDigitsCore] at hc
      by_cases hn : n / 10 = 0
      · rw [if_pos hn] at hc
        rcases List.mem_cons.mp hc with h | h
        · subst h; exact digitChar_isDigit _ (Nat.mod_lt _ (by norm_num))
        · exact hds c h
      · rw [if_neg hn] at hc
        refine ih (n / 10) (Nat.digitChar (n % 10) :: ds) ?_ c hc
        intro c' hc'
        rcases List.mem_cons.mp hc' with h | h
        · subst h; exact digitChar_isDigit _ (Nat.mod_lt _ (by norm_num))
        · exact hds c' h

theorem toDigitsCore_length_mono (f : Nat) :
    ∀ (n : Nat) (ds : List Char), ds.length ≤ (Nat.toDigitsCore 10 f n ds).length := by
  induction f with
  | zero => intro n ds; simp [Nat.toDigitsCore]
  | succ f ih =>
      intro n ds
      simp only [Nat.toDigitsCore]
      by_cases hn : n / 10 = 0
      · rw [if_pos hn]; simp
      · rw [if_neg hn]
        calc ds.length ≤ (Nat.digitChar (n % 10) :: ds).length := by simp
          _ ≤ _ := ih (n / 10) _

theorem repr_data_digits (n : Nat) : ∀ c ∈ (Nat.repr n).data, c.isDigit = true := by
  intro c hc
  have hdef : (Nat.repr n).data = Nat.toDigitsCore 10 (n + 1) n [] := rfl
  rw [hdef] at hc
  exact toDigitsCore_all_digits (n + 1) n [] (by intro c' hc'; simp at hc') c hc

theorem repr_data_ne_nil (n : Nat) : (Nat.repr n).data ≠ [] := by
  have hdef : (Nat.repr n).data = Nat.toDigitsCore 10 (n + 1) n [] := rfl
  rw [hdef]
  simp only [Nat.toDigitsCore]
  by_cases hn : n / 10 = 0
  · rw [if_pos hn]; simp
  · rw [if_neg hn]
    intro hcontra
    have hmono := toDigitsCore_length_mono n (n / 10) [Nat.digitChar (n % 10)]
    rw [hcontra] at hmono
    simp at hmono

/-- A synthesized spawn label always ends in a decimal numeral, so it can never
collide with the coordinator root label. -/
theorem spawn_label_ne_root (t : ActivityTracker) (input_data : InputData) :
    spawn_label t input_data ≠ "LEAD-ORCHESTRATOR" := by
  intro h
  have hdata : (spawn_label t input_data).data = "LEAD-ORCHESTRATOR".data := by rw [h]
  have hsplit : (spawn_label t input_data).data =
      ((upperStr ((input_data.tool_input.getD {}).subagent_type.getD "")).data ++ ['-']) ++
        (Nat.repr (t.subagent_map.length + 1)).data := rfl
  rcases List.eq_nil_or_concat (Nat.repr (t.subagent_map.length + 1)).data with hnil | ⟨ds, d, hds⟩
  · exact repr_data_ne_nil _ hnil
  · have hdmem : d ∈ (Nat.repr (t.subagent_map.length + 1)).data := by
      rw [hds]; simp
    have hddig : d.isDigit = true := repr_data_digits _ d hdmem
    have hlast : ((spawn_label t input_data).data).getLast? = some d := by
      rw [hsplit, hds, List.concat_eq_append, ← List.append_assoc]
      exact List.getLast?_concat _
    rw [hdata] at hlast
    have hR : d = 'R' := by
      have : ("LEAD-ORCHESTRATOR".data).getLast? = some 'R' := by decide
      rw [this] at hlast
      exact (Option.some_inj.mp hlast).symm
    rw [hR] at hddig
    exact absurd hddig (by decide)

theorem noRootValues_stepHook (t : ActivityTracker) (e : HookEvent)
    (h : ∀ p ∈ t.subagent_map, p.2 ≠ "LEAD-ORCHESTRATOR") :
    ∀ p ∈ (stepHook t e).subagent_map, p.2 ≠ "LEAD-ORCHESTRATOR" := by
  cases hsp : spawnId? e with
  | none => rw [subagent_map_stepHook_of_spawnId_none t e hsp]; exact h
  | some i =>
      obtain ⟨inp, hw⟩ := subagent_map_stepHook_of_spawnId_some t e i hsp
      rw [hw]
      intro p hp
      rcases mem_dictInsert _ _ _ _ hp with hp | hp
      · rw [hp]
        exact spawn_label_ne_root t inp
      · exact h p hp

theorem rootRecordCount_setLast (output_data : OutputData) (l : List AgentActivity) :
    rootRecordCount (setLast output_data l) = rootRecordCount l := by
  induction l with
  | nil => rfl
  | cons a rest ih =>
      cases rest with
      | nil => rfl
      | cons b rest' =>
          simp only [setLast, rootRecordCount, List.countP_cons] at *
          omega

theorem rootRecordCount_run (es : List HookEvent) :
    ∀ t : ActivityTracker, allParentsMapped t es = true →
      (∀ p ∈ t.subagent_map, p.2 ≠ "LEAD-ORCHESTRATOR") →
      rootRecordCount (runHooks t es).activities =
        rootRecordCount t.activities + rootEnterCount es := by
  induction es with
  | nil => intro t _ _; simp [runHooks, rootEnterCount, List.countP_nil]
  | cons e rest ih =>
      intro t hmap hnr
      have hok : parentOk t e = true ∧ allParentsMapped (stepHook t e) rest = true := by
        simpa [allParentsMapped, Bool.and_eq_true] using hmap
      have hrun : runHooks t (e :: rest) = runHooks (stepHook t e) rest := rfl
      rw [hrun, ih (stepHook t e) hok.2 (noRootValues_stepHook t e hnr)]
      cases e with
      | enter input_data tuid ts =>
          have hact : (stepHook t (HookEvent.enter input_data tuid ts)).activities =
              t.activities ++
                [{ agent_name := (input_data.parent_tool_use_id.bind
                      (dlookup (spawn_phase t input_data tuid).subagent_map)).getD
                      "LEAD-ORCHESTRATOR",
                   tool_name := input_data.tool_name.getD "Unknown", timestamp := ts,
                   input_data := input_data, output_data := [],
                   parent_tool_id := input_data.parent_tool_use_id }] := by
            simp [stepHook, pre_tool_use_hook, spawn_phase_activities]
          cases hpar : input_data.parent_tool_use_id with
          | none =>
              have hcnt : rootEnterCount (HookEvent.enter input_data tuid ts :: rest) =
                  rootEnterCount rest + 1 := by
                simp [rootEnterCount, List.countP_cons, isRootEnter, hpar]
              rw [hcnt, hact]
              simp only [rootRecordCount, List.countP_append, hpar]
              simp [List.countP_cons]
              omega
          | some p =>
              obtain ⟨lbl, hlbl⟩ := Option.isSome_iff_exists.mp (by
                have := hok.1
                simpa [parentOk, hpar] using this)
              have hne : lbl ≠ "LEAD-ORCHESTRATOR" := by
                have hmem := dlookup_mem _ _ _ hlbl
                have hnr' := noRootValues_stepHook t (HookEvent.enter input_data tuid ts) hnr
                have hmapeq : (stepHook t (HookEvent.enter input_data tuid ts)).subagent_map =
                    (spawn_phase t input_data tuid).subagent_map := rfl
                rw [hmapeq] at hnr'
                exact hnr' (p, lbl) hmem
              have hcnt : rootEnterCount (HookEvent.enter input_data tuid ts :: rest) =
                  rootEnterCount rest := by
                simp [rootEnterCount, List.countP_cons, isRootEnter, hpar]
              rw [hcnt, hact]
              simp only [rootRecordCount, List.countP_append, hpar]
              simp [List.countP_cons, Option.bind, hlbl, hne]
      | exit input_data output_data tuid =>
          have hcnt : rootEnterCount (HookEvent.exit input_data output_data tuid :: rest) =
              rootEnterCount rest := by
            simp [rootEnterCount, List.countP_cons, isRootEnter]
          rw [hcnt]
          have hact : rootRecordCount (stepHook t
              (HookEvent.exit input_data output_data tuid)).activities =
              rootRecordCount t.activities := by
            simp only [stepHook, post_tool_use_hook]
            split
            · rfl
            · simp [rootRecordCount_setLast]
          rw [hact]

/-- C5: Each enter event whose parent call identifier is a key of the SpawnMap
(at lookup time, i.e. after this event's own spawn-detection block) is
attributed to the synthesized label stored under that key, and each enter
event whose parent identifier is absent or unmapped is attributed to the
coordinator root label; consequently, whenever every set parent identifier of
the stream is mapped when its event is processed (as happens for well-nested
spawn/child streams), the number of records attributed at root level equals
the number of events whose parent id is unset. -/
theorem enter_attribution (t : ActivityTracker) (input_data : InputData)
    (tool_use_id : Option String) (ts : String) (es : List HookEvent) :
    (∀ p lbl, input_data.parent_tool_use_id = some p →
        dlookup (spawn_phase t input_data tool_use_id).subagent_map p = some lbl →
        ((pre_tool_use_hook t input_data tool_use_id ts).activities.getLast?).map
          (fun a => a.agent_name) = some lbl) ∧
    (input_data.parent_tool_use_id.bind
        (dlookup (spawn_phase t input_data tool_use_id).subagent_map) = none →
      ((pre_tool_use_hook t input_data tool_use_id ts).activities.getLast?).map
        (fun a => a.agent_name) = some "LEAD-ORCHESTRATOR") ∧
    (allParentsMapped ActivityTracker.init es = true →
      rootRecordCount (runHooks ActivityTracker.init es).activities = rootEnterCount es) := by
  refine ⟨?_, ?_, ?_⟩
  · intro p lbl hp hlk
    simp [pre_tool_use_hook, List.getLast?_concat, hp, Option.bind, hlk]
  · intro hnone
    simp [pre_tool_use_hook, List.getLast?_concat, hnone]
  · intro h
    have hc := rootRecordCount_run es ActivityTracker.init h
      (by intro p hp; simp [ActivityTracker.init] at hp)
    have h0 : rootRecordCount ActivityTracker.init.activities = 0 := rfl
    rw [h0] at hc
    simpa using hc

/-- A tracker that has already observed one spawn of a "research" sub-worker. -/
def tSpawned : ActivityTracker :=
  runHooks ActivityTracker.init [HookEvent.enter (taskInput "research") (some "t1") "a"]

/-- Witness for C5: a mapped child event is attributed to "RESEARCH-1", an
unmapped event to the root label, and on a concrete well-nested stream the
root-level record count equals the number of events with unset parent id. -/
theorem enter_attribution_witness :
    ((pre_tool_use_hook tSpawned
        { tool_name := some "Read", parent_tool_use_id := some "t1" } none "b").activities.getLast?).map
      (fun a => a.agent_name) = some "RESEARCH-1" ∧
    ((pre_tool_use_hook ActivityTracker.init { tool_name := some "Write" } none "c").activities.getLast?).map
      (fun a => a.agent_name) = some "LEAD-ORCHESTRATOR" ∧
    rootRecordCount (runHooks ActivityTracker.init
        [HookEvent.enter (taskInput "research") (some "t1") "a",
         HookEvent.enter { tool_name := some "Read", parent_tool_use_id := some "t1" } none "b",
         HookEvent.enter { tool_name := some "Write" } none "c"]).activities = 2 ∧
    rootEnterCount
        [HookEvent.enter (taskInput "research") (some "t1") "a",
         HookEvent.enter { tool_name := some "Read", parent_tool_use_id := some "t1" } none "b",
         HookEvent.enter { tool_name := some "Write" } none "c"] = 2 := by
  refine ⟨?_, ?_, ?_, by decide⟩
  · exact (enter_attribution tSpawned
      { tool_name := some "Read", parent_tool_use_id := some "t1" } none "b" []).1
      "t1" "RESEARCH-1" rfl (by decide)
  · exact (enter_attribution ActivityTracker.init { tool_name := some "Write" } none "c" []).2.1 rfl
  · have h := (enter_attribution ActivityTracker.init {} none ""
        [HookEvent.enter (taskInput "research") (some "t1") "a",
         HookEvent.enter { tool_name := some "Read", parent_tool_use_id := some "t1" } none "b",
         HookEvent.enter { tool_name := some "Write" } none "c"]).2.2 (by decide)
    rw [h]
    decide

/-- C10: For every tracker state in which the activity list is empty,
processing an exit (post-tool-use) event is a no-op at the public interface:
it raises no error, leaves the activity list and spawn map unchanged, and
returns the empty mapping. -/
theorem post_hook_empty_noop (t : ActivityTracker) (input_data : InputData)
    (output_data : OutputData) (tool_use_id : Option String) (h : t.activities = []) :
    post_tool_use_hook t input_data output_data tool_use_id = (t, []) := by
  simp [post_tool_use_hook, h]

/-- Witness for C10 at the freshly constructed tracker. -/
theorem post_hook_empty_noop_witness :
    post_tool_use_hook ActivityTracker.init {} [("stdout", "x")] (some "t1") =
      (ActivityTracker.init, []) :=
  post_hook_empty_noop ActivityTracker.init {} [("stdout", "x")] (some "t1") rfl

/-! ## Staged pipeline execution (`PipelineOrchestrator.execute_pipeline` in
`multi_agent_orchestrator.py`). The external engine (`query`) is abstracted as
a function from (agent type, instruction prompt) to the list of text blocks it
streams back; the event-observer wiring is the `ActivityTracker` model above
and does not influence stage outputs. -/

/-- One pipeline stage definition (`{"name", "agent_type", "task",
"dependencies"}`); an absent "name" key is rendered as `Stage-{i+1}`. -/
structure Stage where
  name : Option String := none
  agent_type : String
  task : String
  dependencies : List String := []
  deriving DecidableEq, Repr

/-- `stage.get("name", f"Stage-{i+1}")` for the stage at zero-based index `i`. -/
def stage_name (i : Nat) (s : Stage) : String :=
  s.name.getD ("Stage-" ++ toString (i + 1))

/-- The `dep_context` accumulation: a fixed header, then for each dependency in
declaration order that has a recorded output, the block `"\n[dep]:\n" ++ output
++ "\n"`; dependencies with no recorded output are skipped. -/
def dep_context (stage_outputs : List (String × String)) (dependencies : List String) : String :=
  dependencies.foldl
    (fun acc dep =>
      match dlookup stage_outputs dep with
      | some out => acc ++ "\n[" ++ dep ++ "]:\n" ++ out ++ "\n"
      | none => acc)
    "\n\nPREVIOUS STAGE OUTPUTS:\n"

/-- The instruction payload actually executed for a stage: the declared task,
with the dependency context appended when the dependency list is nonempty. -/
def inject_task (stage_outputs : List (String × String)) (s : Stage) : String :=
  if s.dependencies.isEmpty then s.task
  else s.task ++ dep_context stage_outputs s.dependencies

/-- The structured result of `execute_pipeline`. -/
structure PipelineResult where
  status : String
  stage_outputs : List (String × String)
  workspace : String
  deriving DecidableEq, Repr

/-- The stage loop of `execute_pipeline`: for each stage (at running index
`i`), splice in the dependency context, invoke the engine once, join the
streamed text blocks with newlines, and record the result under the stage's
name. -/
def run_stages (engine : String → String → List String) :
    List (String × String) → Nat → List Stage → List (String × String)
  | stage_outputs, _, [] => stage_outputs
  | stage_outputs, i, s :: rest =>
      let t := inject_task stage_outputs s
      let out := String.intercalate "\n" (engine s.agent_type t)
      run_stages engine (dictInsert stage_outputs (stage_name i s) out) (i + 1) rest

/-- `PipelineOrchestrator.execute_pipeline`: runs every stage of the list in
order starting from an empty output map and returns status "completed". -/
def execute_pipeline (engine : String → String → List String) (workspace : String)
    (stages : List Stage) : PipelineResult :=
  { status := "completed", stage_outputs := run_stages engine [] 0 stages,
    workspace := workspace }

theorem dlookup_isSome_run_stages (engine : String → String → List String)
    (stages : List Stage) :
    ∀ (stage_outputs : List (String × String)) (i : Nat) (k : String),
      (dlookup stage_outputs k).isSome →
      (dlookup (run_stages engine stage_outputs i stages) k).isSome := by
  induction stages with
  | nil => intro _ _ _ h; exact h
  | cons s rest ih =>
      intro stage_outputs i k h
      exact ih _ (i + 1) k (dlookup_isSome_dictInsert _ _ _ _ h)

theorem run_stages_records_stage (engine : String → String → List String)
    (stages : List Stage) :
    ∀ (stage_outputs : List (String × String)) (i j : Nat) (h : j < stages.length),
      (dlookup (run_stages engine stage_outputs i stages)
        (stage_name (i + j) (stages.get ⟨j, h⟩))).isSome := by
  induction stages with
  | nil => intro _ _ j h; exact absurd h (by simp)
  | cons s rest ih =>
      intro stage_outputs i j h
      cases j with
      | zero =>
          simp only [List.get, Nat.add_zero, run_stages]
          exact dlookup_isSome_run_stages engine rest _ (i + 1) (stage_name i s)
            (by rw [dlookup_dictInsert_self]; rfl)
      | succ j' =>
          have hj' : j' < rest.length := Nat.lt_of_succ_lt_succ h
          have hidx : i + (j' + 1) = (i + 1) + j' := by omega
          simp only [List.get, run_stages]
          rw [hidx]
          exact ih _ (i + 1) j' hj'

/-- Counterexample to C2: a single stage "B" declaring the never-completed
dependency "A" is nevertheless executed — the run returns the normal
"completed" status and records an output for "B" (produced from B's task with
an empty dependency-context header), instead of failing with any
DependencyNotSatisfiedError (no such error exists in the code). -/
theorem pipeline_missing_dependency_counterexample :
    (execute_pipeline (fun _ t => [t]) "ws"
        [{ name := some "B", agent_type := "data-analyst", task := "analyze",
           dependencies := ["A"] }]).status = "completed" ∧
    dlookup (execute_pipeline (fun _ t => [t]) "ws"
        [{ name := some "B", agent_type := "data-analyst", task := "analyze",
           dependencies := ["A"] }]).stage_outputs "B" =
      some "analyze\n\nPREVIOUS STAGE OUTPUTS:\n" := by
  constructor
  · rfl
  · decide

/-- C2 amended: in staged execution mode a stage whose declared dependency has
not completed is started anyway — the missing dependency's output is silently
omitted from the injected context, every stage of the list is executed in
list order (each records an output under its stage name), and the whole run
returns status "completed"; no DependencyNotSatisfiedError is raised. -/
theorem pipeline_runs_every_stage (engine : String → String → List String)
    (workspace : String) (stages : List Stage) (j : Nat) (h : j < stages.length) :
    (execute_pipeline engine workspace stages).status = "completed" ∧
    (dlookup (execute_pipeline engine workspace stages).stage_outputs
      (stage_name j (stages.get ⟨j, h⟩))).isSome := by
  refine ⟨rfl, ?_⟩
  have := run_stages_records_stage engine stages [] 0 j h
  simpa using this

/-- Witness for C2 amended: the single dependency-violating stage "B" of the
counterexample run has a recorded output. -/
theorem pipeline_runs_every_stage_witness :
    (dlookup (execute_pipeline (fun _ t => [t]) "ws"
        [{ name := some "B", agent_type := "data-analyst", task := "analyze",
           dependencies := ["A"] }]).stage_outputs
      (stage_name 0
        ({ name := some "B", agent_type := "data-analyst", task := "analyze",
           dependencies := ["A"] } : Stage))).isSome :=
  (pipeline_runs_every_stage (fun _ t => [t]) "ws"
    [{ name := some "B", agent_type := "data-analyst", task := "analyze",
       dependencies := ["A"] }] 0 (by decide)).2

/-- The per-dependency block contributed to the dependency context, as the
amended C3 describes it: `"\n[dep]:\n" ++ output ++ "\n"` for a dependency
with a recorded output, nothing for one without. -/
def dep_blocks (stage_outputs : List (String × String)) : List String → String
  | [] => ""
  | dep :: deps =>
      (match dlookup stage_outputs dep with
       | some out => "\n[" ++ dep ++ "]:\n" ++ out ++ "\n"
       | none => "") ++ dep_blocks stage_outputs deps

theorem dep_context_foldl_acc (stage_outputs : List (String × String))
    (dependencies : List String) :
    ∀ acc : String,
      dependencies.foldl
        (fun acc dep =>
          match dlookup stage_outputs dep with
          | some out => acc ++ "\n[" ++ dep ++ "]:\n" ++ out ++ "\n"
          | none => acc) acc = acc ++ dep_blocks stage_outputs dependencies := by
  induction dependencies with
  | nil => intro acc; simp [dep_blocks]
  | cons d ds ih =>
      intro acc
      simp only [List.foldl_cons, dep_blocks]
      cases hd : dlookup stage_outputs d with
      | none => rw [ih]; simp
      | some out => rw [ih]; simp [String.append_assoc]

/-- Example stages from the spec's two-stage scenario: A with no dependencies
whose engine run produces the text "X", and B depending on A. -/
def stageA : Stage := { name := some "A", agent_type := "echo", task := "ta" }

/-- Stage B of the two-stage scenario, declaring its dependency on A. -/
def stageB : Stage :=
  { name := some "B", agent_type := "echo", task := "tb", dependencies := ["A"] }

/-- Counterexample to C3: with stage A's recorded output "X", the text spliced
into B's instruction payload is the header-and-label block
`"\n\nPREVIOUS STAGE OUTPUTS:\n\n[A]:\nX\n"` — not the bare concatenation
"X" of the dependency outputs that the claim asserts. -/
theorem inject_dependency_outputs_counterexample :
    dep_context [("A", "X")] ["A"] = "\n\nPREVIOUS STAGE OUTPUTS:\n\n[A]:\nX\n" ∧
    dep_context [("A", "X")] ["A"] ≠ "X" ∧
    (execute_pipeline (fun _ t => if t == "ta" then ["X"] else ["Y"]) "ws"
        [stageA, stageB]).stage_outputs = [("A", "X"), ("B", "Y")] ∧
    inject_task [("A", "X")] stageB = "tb\n\nPREVIOUS STAGE OUTPUTS:\n\n[A]:\nX\n" := by
  refine ⟨by decide, by decide, by decide, by decide⟩

/-- C3 amended: for every stage with recorded dependency outputs, the text
spliced into the stage's instruction payload before execution is the fixed
header "\n\nPREVIOUS STAGE OUTPUTS:\n" followed by, for each dependency in
dependency-declaration order that has a recorded output, the labeled block
"\n[dep]:\n" ++ output ++ "\n" (a dependency with no recorded output
contributes nothing); in particular, for stages A (output "X") and B
(depending on A), the context spliced for B embeds exactly "X" inside the
header-and-label block. -/
theorem inject_dependency_outputs_shape (stage_outputs : List (String × String))
    (dependencies : List String) :
    dep_context stage_outputs dependencies =
      "\n\nPREVIOUS STAGE OUTPUTS:\n" ++ dep_blocks stage_outputs dependencies ∧
    dep_context [("A", "X")] ["A"] = "\n\nPREVIOUS STAGE OUTPUTS:\n\n[A]:\nX\n" := by
  exact ⟨dep_context_foldl_acc stage_outputs dependencies "\n\nPREVIOUS STAGE OUTPUTS:\n",
    by decide⟩

/-! ## Single-invocation execution (`FlexibleOrchestrator.execute` in
`flexible_orchestrator-activity.py`). The single external engine invocation is
abstracted by its observable effects: the hook events it emits (observed by
the tracker when tracking is enabled) and the files its stream leaves in the
workspace. -/

/-- One entry of the result's output-file listing: `str(file_path)`,
`file_path.name` and `file_path.stat().st_size`. -/
structure FileEntry where
  path : String
  name : String
  size : Nat
  deriving DecidableEq, Repr

/-- The `results` dictionary returned by `execute`; the two tracking fields are
present only when tracking is enabled. -/
structure OrchestratorResult where
  task : String
  workspace : String
  output_files : List FileEntry
  status : String
  activity_timeline : Option (List AgentActivity) := none
  total_tool_calls : Option Nat := none
  deriving DecidableEq, Repr

/-- `FlexibleOrchestrator` state: registry, workspace root, tracking flag and
the tracker created when tracking is enabled. -/
structure FlexibleOrchestrator where
  registry : AgentRegistry
  workspace : String
  enable_tracking : Bool
  tracker : Option ActivityTracker
  deriving DecidableEq, Repr

/-- `FlexibleOrchestrator.__init__`: a tracker exists exactly when tracking is
enabled. -/
def FlexibleOrchestrator.make (agent_registry : AgentRegistry) (workspace_dir : String)
    (enable_tracking : Bool) : FlexibleOrchestrator :=
  { registry := agent_registry, workspace := workspace_dir,
    enable_tracking := enable_tracking,
    tracker := if enable_tracking then some ActivityTracker.init else none }

/-- Workspace contents as (relative file name, file content) pairs; applying
the stream's writes in order, a write with an existing name overwrites (last
write wins). -/
def applyWrites (files : List (String × String)) (writes : List (String × String)) :
    List (String × String) :=
  writes.foldl (fun fs w => dictInsert fs w.1 w.2) files

/-- `FlexibleOrchestrator.execute`: runs the engine stream (observing its hook
events through the tracker when tracking is enabled), then enumerates the
workspace files into the result's artifact listing — name and byte size per
file — with status "completed"; when tracking is enabled the full record list
and total call count are attached. -/
def FlexibleOrchestrator.execute (o : FlexibleOrchestrator) (task : String)
    (stream_events : List HookEvent) (stream_writes : List (String × String))
    (files_before : List (String × String)) : OrchestratorResult :=
  let tracker1 :=
    if o.enable_tracking then o.tracker.map (fun tr => runHooks tr stream_events) else o.tracker
  let files_after := applyWrites files_before stream_writes
  let base : OrchestratorResult :=
    { task := task, workspace := o.workspace,
      output_files := files_after.map (fun f =>
        { path := o.workspace ++ "/" ++ f.1, name := f.1, size := f.2.utf8ByteSize }),
      status := "completed" }
  match o.enable_tracking, tracker1 with
  | true, some tr =>
      { base with
        activity_timeline := some tr.activities,
        total_tool_calls := some tr.activities.length }
  | _, _ => base

theorem execute_output_files (o : FlexibleOrchestrator) (task : String)
    (stream_events : List HookEvent) (stream_writes : List (String × String))
    (files_before : List (String × String)) :
    (o.execute task stream_events stream_writes files_before).output_files =
      (applyWrites files_before stream_writes).map (fun f =>
        { path := o.workspace ++ "/" ++ f.1, name := f.1, size := f.2.utf8ByteSize }) := by
  simp only [FlexibleOrchestrator.execute]
  split <;> rfl

theorem execute_status (o : FlexibleOrchestrator) (task : String)
    (stream_events : List HookEvent) (stream_writes : List (String × String))
    (files_before : List (String × String)) :
    (o.execute task stream_events stream_writes files_before).status = "completed" := by
  simp only [FlexibleOrchestrator.execute]
  split <;> rfl

/-- C9: For every single-invocation run over a workspace that held zero files
beforehand, if the engine's stream leaves exactly the files report.md and
data.json in the workspace, then the returned result's output-file list
contains exactly those two entries, each with its correct byte size and name,
and the result's status is "completed". -/
theorem execute_collects_artifacts (agent_registry : AgentRegistry) (ws task : String)
    (enable_tracking : Bool) (stream_events : List HookEvent)
    (stream_writes : List (String × String)) (c1 c2 : String)
    (h : applyWrites [] stream_writes = [("report.md", c1), ("data.json", c2)]) :
    ((FlexibleOrchestrator.make agent_registry ws enable_tracking).execute task
        stream_events stream_writes []).output_files =
      [{ path := ws ++ "/" ++ "report.md", name := "report.md", size := c1.utf8ByteSize },
       { path := ws ++ "/" ++ "data.json", name := "data.json", size := c2.utf8ByteSize }] ∧
    ((FlexibleOrchestrator.make agent_registry ws enable_tracking).execute task
        stream_events stream_writes []).status = "completed" := by
  refine ⟨?_, execute_status _ _ _ _ _⟩
  rw [execute_output_files, h]
  rfl

/-- Witness for C9 at a concrete run whose stream writes "hello" to report.md
and "12" to data.json. -/
theorem execute_collects_artifacts_witness :
    ((FlexibleOrchestrator.make AgentRegistry.empty "wsp" true).execute "t" []
        [("report.md", "hello"), ("data.json", "12")] []).output_files =
      [{ path := "wsp/report.md", name := "report.md", size := 5 },
       { path := "wsp/data.json", name := "data.json", size := 2 }] ∧
    ((FlexibleOrchestrator.make AgentRegistry.empty "wsp" true).execute "t" []
        [("report.md", "hello"), ("data.json", "12")] []).status = "completed" := by
  have h := execute_collects_artifacts AgentRegistry.empty "wsp" "t" true []
    [("report.md", "hello"), ("data.json", "12")] "hello" "12" (by decide)
  exact ⟨by rw [h.1]; decide, h.2⟩

end Orchestration
